import Mathlib

/-!
Shallow embedding of the Quizzical quiz client (src/unnamed/part_000, the
current `App` component). State fields mirror the `useState` hooks; the
memoized `randomizedAnswers` value is modelled by storing the cached list
together with the identity key of the batch it was computed for
(`useMemo` compares its dependency array `[questions]` by reference, which
`batchKey` models: every successful fetch installs a fresh array reference).
Event handlers become state-transition functions; the guard of each
transition records which control the JSX actually renders (and enables) in
the given state, since a handler can only fire from a rendered control.
The single async fetch is modelled by a `pending` counter of in-flight
requests plus explicit resolution events.
-/

namespace Quizzical

/-- One trivia item as delivered by the Open Trivia DB `results` array. -/
structure Question where
  question : String
  correct_answer : String
  incorrect_answers : List String
deriving DecidableEq, Repr

/-- The component state of `App` in src/unnamed/part_000: the five
`useState` hooks, plus `batchKey` (identity of the current `questions`
array reference), `memoKey`/`randomizedAnswers` (the `useMemo` cache and
the dependency key it was computed for), and `pending` (number of fetch
requests currently in flight). -/
structure AppState where
  questions : List Question
  loading : Bool
  error : Option String
  selectedAnswers : List (Option String)
  showResults : Bool
  batchKey : Nat
  memoKey : Nat
  randomizedAnswers : List (List String)
  pending : Nat
deriving DecidableEq, Repr

/-- Initial state: `useState([])`, `useState(true)`, `useState(null)`,
`useState([])`, `useState(false)`; no request in flight; the memo cache
holds the value for the (empty) initial batch. -/
def initialState : AppState :=
  { questions := []
    loading := true
    error := none
    selectedAnswers := []
    showResults := false
    batchKey := 0
    memoKey := 0
    randomizedAnswers := []
    pending := 0 }

/-- JS `arr.splice(r, 0, c)` on a copy of `arr`: insert `c` at index `r`
(clamped to the length, as splice clamps). -/
def spliceInsert (l : List String) (r : Nat) (c : String) : List String :=
  l.take r ++ c :: l.drop r

/-- Body of the per-question step of `randomizedAnswers` /
`combineAndRandomizeAnswers`: copy `incorrect_answers`, insert the correct
answer at the drawn index `r` (the code draws
`Math.floor(Math.random() * (answerChoices.length + 1))`, which lies in
`[0, incorrect_answers.length]`). -/
def combineAnswers (q : Question) (r : Nat) : List String :=
  spliceInsert q.incorrect_answers r q.correct_answer

/-- Recursion for `computeRandomized`, carrying the question index used to
draw that question's random insertion point from the oracle. -/
def computeRandomizedGo (rand : Nat → Nat) : Nat → List Question → List (List String)
  | _, [] => []
  | i, q :: qs => combineAnswers q (rand i) :: computeRandomizedGo rand (i + 1) qs

/-- The function inside the `useMemo` of src/unnamed/part_000 lines 62-74:
empty batch gives `[]`, otherwise one combined-and-randomized answer list
per question. `rand i` is the oracle for question `i`'s drawn index. -/
def computeRandomized (qs : List Question) (rand : Nat → Nat) : List (List String) :=
  if qs.isEmpty then [] else computeRandomizedGo rand 0 qs

/-- One render's evaluation of the `useMemo`: if the dependency `[questions]`
is the same reference as last time (`memoKey = batchKey`) the cached value
is reused untouched; otherwise the memo body runs with fresh randomness and
the cache is rekeyed. -/
def renderMemo (σ : AppState) (rand : Nat → Nat) : AppState :=
  if σ.memoKey = σ.batchKey then σ
  else { σ with memoKey := σ.batchKey
                randomizedAnswers := computeRandomized σ.questions rand }

/-- Issuing `fetchQuestions()`: one more request in flight. -/
def startFetch (σ : AppState) : AppState :=
  { σ with pending := σ.pending + 1 }

/-- The Start Quiz button (src/unnamed/part_000 lines 134-142) is rendered
exactly when `questions.length === 0`. -/
def startButtonRendered (σ : AppState) : Bool :=
  σ.questions.isEmpty

/-- Clicking Start Quiz: its `onClick={fetchQuestions}` can only fire while
the button is rendered, i.e. while the batch is empty. -/
def clickStart (σ : AppState) : AppState :=
  if σ.questions.isEmpty then startFetch σ else σ

/-- Successful resolution of `fetchQuestions`: `setQuestions(data.results)`
installs a fresh array reference (`batchKey` bumped),
`setSelectedAnswers(data.results.map(() => null))`, and the `finally`
block runs `setLoading(false)`. `error` is not cleared: the code has no
`setError(null)` on success. -/
def resolveSuccess (σ : AppState) (results : List Question) : AppState :=
  { σ with questions := results
           batchKey := σ.batchKey + 1
           selectedAnswers := results.map fun _ => none
           loading := false
           pending := σ.pending - 1 }

/-- The message of the error thrown for a non-ok response:
`HTTP error! Status: $\x7bresponse.status\x7d` interpolated. -/
def httpErrorMessage (status : Nat) : String :=
  "HTTP error! Status: " ++ toString status

/-- Failed resolution of `fetchQuestions` with a non-2xx HTTP status: the
thrown error is caught, `setError(e.message)` stores its message, and the
`finally` block runs `setLoading(false)`. Nothing else is touched. -/
def resolveFailure (σ : AppState) (status : Nat) : AppState :=
  { σ with error := some (httpErrorMessage status)
           loading := false
           pending := σ.pending - 1 }

/-- JS assignment `newAnswers[index] = answer` on a copy of the array:
in-range indices are overwritten; an index at or past the length extends
the array, the skipped slots reading as undefined (modelled `none`). -/
def listSetExtend (l : List (Option String)) (i : Nat) (a : String) :
    List (Option String) :=
  if i < l.length then l.set i (some a)
  else l ++ List.replicate (i - l.length) none ++ [some a]

/-- The `handleAnswerClick` body (src/unnamed/part_000 lines 88-94):
functional update copying `prevSelected` and overwriting slot `index`. -/
def handleAnswerClick (σ : AppState) (i : Nat) (a : String) : AppState :=
  { σ with selectedAnswers := listSetExtend σ.selectedAnswers i a }

/-- A selection attempt for question `i` and answer text `a`. The radio
input wired to `handleAnswerClick(answer, index)` exists only for a
rendered question (`i < questions.length`) and an answer offered by
`randomizedAnswers[index]?`, and is `disabled={showResults}`; an attempt
with no such enabled radio has no handler to fire and is a no-op. -/
def selectAnswer (σ : AppState) (i : Nat) (a : String) : AppState :=
  if σ.showResults = false ∧ i < σ.questions.length ∧
      a ∈ σ.randomizedAnswers.getD i [] then
    handleAnswerClick σ i a
  else σ

/-- Clicking Check answers (`endGame`): the button is rendered only on the
questions screen (`questions.length > 0`) and only while `!showResults`;
it runs `setShowResults(true)`. -/
def endGame (σ : AppState) : AppState :=
  if σ.questions.isEmpty = false ∧ σ.showResults = false then
    { σ with showResults := true }
  else σ

/-- Clicking Play again (`newGame`): the button is rendered only on the
questions screen and only while `showResults`; it runs
`setShowResults(false)`, `setSelectedAnswers([])`, then `fetchQuestions()`.
`questions` is not cleared. -/
def newGame (σ : AppState) : AppState :=
  if σ.questions.isEmpty = false ∧ σ.showResults = true then
    startFetch { σ with showResults := false, selectedAnswers := [] }
  else σ

/-- Recursion of the derived `score` (src/unnamed/part_000 lines 12-14):
`selectedAnswers.filter((answer, index) => answer === questions[index].correct_answer).length`.
Visiting an index with no question dereferences undefined and throws,
modelled as `none`; `null === string` is false, modelled by `Option`
equality. -/
def scoreGo (qs : List Question) : List (Option String) → Nat → Option Nat
  | [], _ => some 0
  | a :: rest, i =>
    match qs[i]? with
    | none => none
    | some q =>
      match scoreGo qs rest (i + 1) with
      | none => none
      | some n => some (if a = some q.correct_answer then n + 1 else n)

/-- The derived score: recomputed from the current `selectedAnswers` and
`questions` on every render; it is not a state field. -/
def score (qs : List Question) (sels : List (Option String)) : Option Nat :=
  scoreGo qs sels 0

/-- The `right` class flag of the clsx classification
(src/unnamed/part_000 lines 100-115). -/
def isRight (showResults : Bool) (c ans : String) : Bool :=
  showResults && (ans == c)

/-- The `wrong` class flag: selected but not the correct answer. -/
def isWrong (showResults : Bool) (sel : Option String) (c ans : String) : Bool :=
  showResults && (sel == some ans) && (ans != c)

/-- The `unselected` class flag: neither selected nor the correct answer. -/
def isUnselected (showResults : Bool) (sel : Option String) (c ans : String) : Bool :=
  showResults && !(sel == some ans) && (ans != c)

/-- States reachable from the initial render by the events of the app:
render passes (re-evaluating the memo with fresh randomness), clicks on
the rendered controls, and resolutions of in-flight fetches. -/
inductive Reachable : AppState → Prop
  | init : Reachable initialState
  | render {σ} (rand : Nat → Nat) : Reachable σ → Reachable (renderMemo σ rand)
  | start {σ} : Reachable σ → Reachable (clickStart σ)
  | success {σ} (results : List Question) :
      Reachable σ → Reachable (resolveSuccess σ results)
  | failure {σ} (status : Nat) :
      Reachable σ → Reachable (resolveFailure σ status)
  | select {σ} (i : Nat) (a : String) :
      Reachable σ → Reachable (selectAnswer σ i a)
  | check {σ} : Reachable σ → Reachable (endGame σ)
  | again {σ} : Reachable σ → Reachable (newGame σ)

/-- Concrete questions used to instantiate theorems. -/
def q1 : Question := ⟨"Q1", "a", ["b", "c", "d"]⟩

/-- A second concrete question. -/
def q2 : Question := ⟨"Q2", "x", ["y", "z", "w"]⟩

theorem scoreGo_eq (qs : List Question) :
    ∀ (sels : List (Option String)) (i : Nat), i + sels.length ≤ qs.length →
      scoreGo qs sels i =
        some ((sels.zip (qs.drop i)).countP fun p =>
          decide (p.1 = some p.2.correct_answer))
  | [], i, _ => by simp [scoreGo]
  | a :: rest, i, h => by
    have hi : i < qs.length := by
      have := List.length_cons a rest ▸ h
      omega
    have hdrop : qs.drop i = qs[i] :: qs.drop (i + 1) :=
      List.drop_eq_getElem_cons hi
    have hget : qs[i]? = some qs[i] := List.getElem?_eq_getElem hi
    have ih := scoreGo_eq qs rest (i + 1) (by
      have := List.length_cons a rest ▸ h
      omega)
    rw [scoreGo, hget, ih, hdrop, List.zip_cons_cons, List.countP_cons]
    by_cases hc : a = some (qs[i]).correct_answer <;> simp [hc]

theorem score_eq (qs : List Question) (sels : List (Option String))
    (h : sels.length ≤ qs.length) :
    score qs sels =
      some ((sels.zip qs).countP fun p =>
        decide (p.1 = some p.2.correct_answer)) := by
  have h0 := scoreGo_eq qs sels 0 (by omega)
  rwa [List.drop_zero] at h0

/-- C1: with `selections` and `batch` of equal length, the derived score is
defined and equals the count of positions whose selection equals that
question's correct answer; it is at most the batch length, reaches it
exactly when every selection is the corresponding correct answer, and a
position holding no selection never counts as correct. -/
theorem score_spec (qs : List Question) (sels : List (Option String))
    (h : sels.length = qs.length) :
    score qs sels =
      some ((sels.zip qs).countP fun p =>
        decide (p.1 = some p.2.correct_answer))
    ∧ (∀ n, score qs sels = some n →
        n ≤ qs.length ∧
          (n = qs.length ↔ ∀ p ∈ sels.zip qs, p.1 = some p.2.correct_answer))
    ∧ (∀ p ∈ sels.zip qs, p.1 = none → ¬ p.1 = some p.2.correct_answer) := by
  have hlenzip : (sels.zip qs).length = qs.length := by
    rw [List.length_zip, h, Nat.min_self]
  have he := score_eq qs sels (le_of_eq h)
  refine ⟨he, ?_, ?_⟩
  · intro n hn
    rw [he, Option.some_inj] at hn
    subst hn
    constructor
    · exact le_trans (List.countP_le_length _) (le_of_eq hlenzip)
    · rw [← hlenzip, List.countP_eq_length]
      simp
  · intro p _ hp
    simp [hp]

/-- Witness for C1 at a concrete two-question batch, first answer correct,
second unanswered. -/
theorem score_spec_witness :
    ([some "a", none] : List (Option String)).length =
      ([q1, q2] : List Question).length
    ∧ score [q1, q2] [some "a", none] =
        some ((([some "a", none] : List (Option String)).zip [q1, q2]).countP
          fun p => decide (p.1 = some p.2.correct_answer)) :=
  ⟨by decide, (score_spec [q1, q2] [some "a", none] (by decide)).1⟩

/-- C3: for a drawn insertion index `r ≤ incorrect_answers.length` (every
such index is a possible draw), the computed ordering is exactly the
incorrect answers with the correct answer inserted at position `r`: it has
the correct answer at index `r`, keeps the incorrect answers as a
subsequence in their source order, and its multiset of strings is exactly
the correct answer together with the incorrect answers. -/
theorem combineAnswers_spec (t c : String) (xs : List String) (r : Nat)
    (h : r ≤ xs.length) :
    combineAnswers ⟨t, c, xs⟩ r = xs.take r ++ c :: xs.drop r
    ∧ (combineAnswers ⟨t, c, xs⟩ r)[r]? = some c
    ∧ xs.Sublist (combineAnswers ⟨t, c, xs⟩ r)
    ∧ (combineAnswers ⟨t, c, xs⟩ r).Perm (c :: xs)
    ∧ (combineAnswers ⟨t, c, xs⟩ r).length = xs.length + 1 := by
  have htake : (xs.take r).length = r := List.length_take_of_le h
  refine ⟨rfl, ?_, ?_, ?_, ?_⟩
  · rw [combineAnswers, spliceInsert,
      List.getElem?_append_right (le_of_eq htake), htake]
    simp
  · have hsub : (xs.take r ++ xs.drop r).Sublist (xs.take r ++ c :: xs.drop r) :=
      List.Sublist.append_left (List.sublist_cons_self c (xs.drop r)) (xs.take r)
    rw [List.take_append_drop] at hsub
    exact hsub
  · have hperm : (xs.take r ++ c :: xs.drop r).Perm (c :: (xs.take r ++ xs.drop r)) :=
      List.perm_middle
    rw [List.take_append_drop] at hperm
    exact hperm
  · rw [combineAnswers, spliceInsert]
    simp
    omega

/-- Witness for C3: inserting the correct answer of `q1` at drawn index 2. -/
theorem combineAnswers_spec_witness :
    2 ≤ (["b", "c", "d"] : List String).length
    ∧ (combineAnswers ⟨"Q1", "a", ["b", "c", "d"]⟩ 2 = ["b", "c", "a", "d"]
        ∧ (combineAnswers ⟨"Q1", "a", ["b", "c", "d"]⟩ 2)[2]? = some "a"
        ∧ (["b", "c", "d"] : List String).Sublist
            (combineAnswers ⟨"Q1", "a", ["b", "c", "d"]⟩ 2)
        ∧ (combineAnswers ⟨"Q1", "a", ["b", "c", "d"]⟩ 2).Perm
            ["a", "b", "c", "d"]
        ∧ (combineAnswers ⟨"Q1", "a", ["b", "c", "d"]⟩ 2).length = 4) := by
  have h := combineAnswers_spec "Q1" "a" ["b", "c", "d"] 2 (by decide)
  exact ⟨by decide, by decide, h.2.1, h.2.2.1, h.2.2.2.1, h.2.2.2.2⟩

/-- C9: the three clsx class flags of the per-answer classification are all
false outside the Revealed phase; in the Revealed phase exactly one of them
holds for every answer, `right` exactly for the ground-truth correct
answer, `wrong` exactly for a selected non-correct answer, and
`unselected` exactly for a non-selected non-correct answer. -/
theorem classification_spec (sr : Bool) (sel : Option String) (c ans : String) :
    (sr = false →
      isRight sr c ans = false ∧ isWrong sr sel c ans = false ∧
        isUnselected sr sel c ans = false)
    ∧ (sr = true →
        ((isRight sr c ans = true ∧ isWrong sr sel c ans = false ∧
            isUnselected sr sel c ans = false)
          ∨ (isRight sr c ans = false ∧ isWrong sr sel c ans = true ∧
              isUnselected sr sel c ans = false)
          ∨ (isRight sr c ans = false ∧ isWrong sr sel c ans = false ∧
              isUnselected sr sel c ans = true)))
    ∧ (sr = true → (isRight sr c ans = true ↔ ans = c))
    ∧ (sr = true → (isWrong sr sel c ans = true ↔ sel = some ans ∧ ans ≠ c))
    ∧ (sr = true →
        (isUnselected sr sel c ans = true ↔ sel ≠ some ans ∧ ans ≠ c)) := by
  cases sr with
  | false =>
    exact ⟨fun _ => by simp [isRight, isWrong, isUnselected],
      fun h => by simp at h, fun h => by simp at h, fun h => by simp at h,
      fun h => by simp at h⟩
  | true =>
    refine ⟨fun h => by simp at h, ?_, ?_, ?_, ?_⟩ <;> intro _ <;>
      by_cases hc : ans = c <;> by_cases hs : sel = some ans <;>
      simp [isRight, isWrong, isUnselected, hc, hs]

/-- Witness for C9: all flags false pre-reveal at one concrete input, and
the exactly-one disjunction post-reveal at another. -/
theorem classification_spec_witness :
    (isRight false "c" "a" = false ∧ isWrong false (some "a") "c" "a" = false ∧
      isUnselected false (some "a") "c" "a" = false)
    ∧ ((isRight true "c" "a" = true ∧ isWrong true (some "a") "c" "a" = false ∧
          isUnselected true (some "a") "c" "a" = false)
        ∨ (isRight true "c" "a" = false ∧ isWrong true (some "a") "c" "a" = true ∧
            isUnselected true (some "a") "c" "a" = false)
        ∨ (isRight true "c" "a" = false ∧ isWrong true (some "a") "c" "a" = false ∧
            isUnselected true (some "a") "c" "a" = true)) :=
  ⟨(classification_spec false (some "a") "c" "a").1 rfl,
    (classification_spec true (some "a") "c" "a").2.1 rfl⟩

theorem selectAnswer_preserves_memo (σ : AppState) (i : Nat) (a : String) :
    (selectAnswer σ i a).randomizedAnswers = σ.randomizedAnswers
    ∧ (selectAnswer σ i a).memoKey = σ.memoKey
    ∧ (selectAnswer σ i a).batchKey = σ.batchKey
    ∧ (selectAnswer σ i a).questions = σ.questions := by
  rw [selectAnswer]
  split <;> simp [handleAnswerClick]

theorem renderMemo_of_keys_eq (σ : AppState) (rand : Nat → Nat)
    (h : σ.memoKey = σ.batchKey) : renderMemo σ rand = σ := by
  rw [renderMemo, if_pos h]

/-- C2: the memoized answer ordering is stable for a fixed batch instance:
a second render pass, with fresh randomness, returns the cached ordering
unchanged, including when a selection has mutated the selection state in
between; and a render pass can change the ordering only when the cache key
no longer matches the current batch identity, i.e. only after a new batch
reference was installed. -/
theorem ordering_stable (σ : AppState) (r1 r2 : Nat → Nat) (i : Nat) (a : String) :
    (renderMemo (renderMemo σ r1) r2).randomizedAnswers =
      (renderMemo σ r1).randomizedAnswers
    ∧ (renderMemo (selectAnswer (renderMemo σ r1) i a) r2).randomizedAnswers =
        (renderMemo σ r1).randomizedAnswers
    ∧ ((renderMemo σ r2).randomizedAnswers ≠ σ.randomizedAnswers →
        σ.memoKey ≠ σ.batchKey) := by
  have hkeys : (renderMemo σ r1).memoKey = (renderMemo σ r1).batchKey := by
    rw [renderMemo]
    split
    · assumption
    · rfl
  refine ⟨?_, ?_, ?_⟩
  · rw [renderMemo_of_keys_eq _ r2 hkeys]
  · have hp := selectAnswer_preserves_memo (renderMemo σ r1) i a
    have hk2 : (selectAnswer (renderMemo σ r1) i a).memoKey =
        (selectAnswer (renderMemo σ r1) i a).batchKey := by
      rw [hp.2.1, hp.2.2.1, hkeys]
    rw [renderMemo_of_keys_eq _ r2 hk2, hp.1]
  · intro hne heq
    exact hne (by rw [renderMemo_of_keys_eq σ r2 heq])

/-- A deterministic stand-in for the randomness oracle: always draws 0. -/
def rand0 : Nat → Nat := fun _ => 0

/-- A state whose memo cache is stale: a new batch reference was installed
(`batchKey := 1`) but the cache still carries the key and value of the
previous batch. -/
def staleState : AppState :=
  { initialState with
      questions := [q1]
      selectedAnswers := [none]
      loading := false
      batchKey := 1
      memoKey := 0
      randomizedAnswers := [] }

/-- Witness for C2: at the stale concrete state, a render recomputes (the
ordering changes), confirming the key mismatch, and a second render with
fresh randomness returns the cached ordering unchanged. -/
theorem ordering_stable_witness :
    (renderMemo (renderMemo staleState rand0) rand0).randomizedAnswers =
      (renderMemo staleState rand0).randomizedAnswers
    ∧ staleState.memoKey ≠ staleState.batchKey :=
  ⟨(ordering_stable staleState rand0 rand0 0 "a").1,
    (ordering_stable staleState rand0 rand0 0 "a").2.2 (by decide)⟩

/-- C4: a selection attempt with an out-of-range question index or with an
answer text not among that question's offered choices is a silent no-op on
the whole state; for a valid attempt (pre-reveal, index in range, answer
offered) the selection slot is overwritten with the chosen answer
unconditionally and nothing else changes. -/
theorem selectAnswer_spec (σ : AppState) (i : Nat) (a : String) :
    ((σ.questions.length ≤ i ∨ a ∉ σ.randomizedAnswers.getD i []) →
      selectAnswer σ i a = σ)
    ∧ (σ.showResults = false → i < σ.questions.length →
        a ∈ σ.randomizedAnswers.getD i [] →
        (selectAnswer σ i a).selectedAnswers.get? i = some (some a)
        ∧ (selectAnswer σ i a).questions = σ.questions
        ∧ (selectAnswer σ i a).showResults = σ.showResults
        ∧ (selectAnswer σ i a).randomizedAnswers = σ.randomizedAnswers) := by
  constructor
  · intro hbad
    rw [selectAnswer, if_neg]
    rintro ⟨-, hlt, hmem⟩
    rcases hbad with hle | hnot
    · omega
    · exact hnot hmem
  · intro hsr hlt hmem
    rw [selectAnswer, if_pos ⟨hsr, hlt, hmem⟩]
    refine ⟨?_, rfl, rfl, rfl⟩
    show (listSetExtend σ.selectedAnswers i a).get? i = some (some a)
    rw [listSetExtend]
    split
    · rw [List.get?_eq_getElem?]
      exact List.getElem?_set_eq_of_lt (some a) (by omega)
    · rename_i hge
      rw [List.get?_eq_getElem?, List.append_assoc,
        List.getElem?_append_right (by omega),
        List.getElem?_append_right (le_of_eq (List.length_replicate _ _))]
      simp [List.length_replicate]

/-- A concrete active state: one question loaded, nothing selected yet,
memoized ordering in place. -/
def activeState : AppState :=
  { initialState with
      questions := [q1]
      selectedAnswers := [none]
      loading := false
      batchKey := 1
      memoKey := 1
      randomizedAnswers := [["b", "a", "c", "d"]] }

/-- The concrete active state after reveal. -/
def revealedState : AppState :=
  { activeState with showResults := true }

/-- Witness for C4: at the concrete active state, the invalid attempt
(index 5 beyond the one-question batch) is a no-op and the valid attempt
writes the slot. -/
theorem selectAnswer_spec_witness :
    selectAnswer activeState 5 "a" = activeState
    ∧ (selectAnswer activeState 0 "a").selectedAnswers.get? 0 =
        some (some "a") :=
  ⟨(selectAnswer_spec activeState 5 "a").1 (Or.inl (by decide)),
    ((selectAnswer_spec activeState 0 "a").2 rfl (by decide) (by decide)).1⟩

/-- C5: a fetch resolving with a non-2xx status stores exactly the thrown
message, which embeds the numeric status code (for 503 it contains "503"),
marks the error state non-empty, and leaves the batch, the selections, the
reveal flag and the cached ordering untouched. -/
theorem fetch_error_spec (σ : AppState) (status : Nat) :
    (resolveFailure σ status).error = some (httpErrorMessage status)
    ∧ (resolveFailure σ status).error ≠ none
    ∧ (∃ pre, httpErrorMessage status = pre ++ toString status)
    ∧ (resolveFailure σ 503).error = some "HTTP error! Status: 503"
    ∧ (∃ pre, httpErrorMessage 503 = pre ++ "503")
    ∧ (resolveFailure σ status).questions = σ.questions
    ∧ (resolveFailure σ status).selectedAnswers = σ.selectedAnswers
    ∧ (resolveFailure σ status).showResults = σ.showResults
    ∧ (resolveFailure σ status).randomizedAnswers = σ.randomizedAnswers := by
  refine ⟨rfl, by simp [resolveFailure], ⟨"HTTP error! Status: ", rfl⟩,
    rfl, ⟨"HTTP error! Status: ", rfl⟩, rfl, rfl, rfl, rfl⟩

/-- C6: in the Revealed phase (`showResults` set) every selection attempt,
for any index and any answer text, returns the state unchanged — the
radio inputs are disabled, so no selection can fire. -/
theorem selection_locked_after_reveal (σ : AppState) (i : Nat) (a : String)
    (h : σ.showResults = true) :
    selectAnswer σ i a = σ
    ∧ (selectAnswer σ i a).selectedAnswers = σ.selectedAnswers := by
  have : selectAnswer σ i a = σ := by
    rw [selectAnswer, if_neg]
    rintro ⟨hsr, -, -⟩
    rw [h] at hsr
    cases hsr
  exact ⟨this, by rw [this]⟩

/-- Witness for C6: at the concrete revealed state, a selection attempt
changes nothing. -/
theorem selection_locked_after_reveal_witness :
    revealedState.showResults = true
    ∧ selectAnswer revealedState 0 "a" = revealedState :=
  ⟨rfl, (selection_locked_after_reveal revealedState 0 "a" rfl).1⟩

theorem isEmpty_false_of_ne (l : List Question) (h : l ≠ []) :
    l.isEmpty = false := by
  cases hl : l with
  | nil => exact absurd hl h
  | cons x xs => rfl

/-- Counterexample to C7 as stated: at the concrete revealed state,
`newGame` does not clear the batch — the old questions are still installed
after the click (only the selections and the reveal flag are reset; the
batch is replaced only when the re-fetch resolves). -/
theorem newGame_keeps_batch :
    revealedState.showResults = true
    ∧ (newGame revealedState).questions = revealedState.questions
    ∧ (newGame revealedState).questions ≠ [] := by
  refine ⟨rfl, by decide, by decide⟩

/-- C7 (amended): `newGame` from the Revealed phase resets the reveal flag,
empties the selections, and immediately puts a new request in flight,
leaving the old batch installed until that request resolves; on success a
brand-new batch (fresh identity, different key) is installed with
selections freshly initialized to all none. -/
theorem newGame_spec (σ : AppState) (results : List Question)
    (h1 : σ.showResults = true) (h2 : σ.questions ≠ []) :
    (newGame σ).selectedAnswers = []
    ∧ (newGame σ).showResults = false
    ∧ (newGame σ).pending = σ.pending + 1
    ∧ (newGame σ).questions = σ.questions
    ∧ (resolveSuccess (newGame σ) results).questions = results
    ∧ (resolveSuccess (newGame σ) results).selectedAnswers =
        (results.map fun _ => none)
    ∧ (∀ s ∈ (resolveSuccess (newGame σ) results).selectedAnswers, s = none)
    ∧ (resolveSuccess (newGame σ) results).batchKey ≠ σ.batchKey := by
  have hg : σ.questions.isEmpty = false ∧ σ.showResults = true :=
    ⟨isEmpty_false_of_ne σ.questions h2, h1⟩
  rw [newGame, if_pos hg]
  refine ⟨rfl, rfl, rfl, rfl, rfl, rfl, ?_, ?_⟩
  · intro s hs
    have hm : s ∈ results.map (fun _ => (none : Option String)) := by
      simpa [resolveSuccess, startFetch] using hs
    rw [List.mem_map] at hm
    obtain ⟨-, -, hm⟩ := hm
    exact hm.symm
  · show σ.batchKey + 1 ≠ σ.batchKey
    omega

/-- Witness for C7 (amended) at the concrete revealed state, re-fetching
a one-question batch. -/
theorem newGame_spec_witness :
    revealedState.showResults = true
    ∧ revealedState.questions ≠ []
    ∧ (newGame revealedState).selectedAnswers = []
    ∧ (resolveSuccess (newGame revealedState) [q2]).selectedAnswers =
        (([q2] : List Question).map fun _ => none)
    ∧ (resolveSuccess (newGame revealedState) [q2]).batchKey ≠
        revealedState.batchKey :=
  ⟨rfl, by decide, (newGame_spec revealedState [q2] rfl (by decide)).1,
    (newGame_spec revealedState [q2] rfl (by decide)).2.2.2.2.2.1,
    (newGame_spec revealedState [q2] rfl (by decide)).2.2.2.2.2.2.2⟩

/-- Counterexample to C8 as stated: from the initial state, clicking Start
puts a request in flight, yet the start affordance is still rendered
(`questions` is still empty), so a second Start click is reachable and the
system reaches a state with two concurrent in-flight requests. -/
theorem concurrent_start_reachable :
    Reachable (clickStart (clickStart initialState))
    ∧ (clickStart initialState).pending = 1
    ∧ startButtonRendered (clickStart initialState) = true
    ∧ (clickStart (clickStart initialState)).pending = 2 :=
  ⟨Reachable.start (Reachable.start Reachable.init), by decide, by decide,
    by decide⟩

/-- C8 (amended): once a batch is installed (`questions` nonempty) the
start affordance is not rendered and a Start click is a no-op, so no
second request can be launched from the start affordance; during the
initial load, however, the affordance is still rendered and concurrent
requests are reachable. -/
theorem start_unreachable_with_batch (σ : AppState)
    (h : σ.questions ≠ []) :
    startButtonRendered σ = false ∧ clickStart σ = σ := by
  have hq : σ.questions.isEmpty = false := isEmpty_false_of_ne σ.questions h
  refine ⟨hq, ?_⟩
  rw [clickStart, if_neg (by simp [hq])]

/-- Witness for C8 (amended) at the concrete active state. -/
theorem start_unreachable_with_batch_witness :
    activeState.questions ≠ []
    ∧ startButtonRendered activeState = false
    ∧ clickStart activeState = activeState :=
  ⟨by decide, (start_unreachable_with_batch activeState (by decide)).1,
    (start_unreachable_with_batch activeState (by decide)).2⟩

theorem listSetExtend_length (l : List (Option String)) (i : Nat) (a : String) :
    (listSetExtend l i a).length = max l.length (i + 1) := by
  rw [listSetExtend]
  split
  · rw [List.length_set]
    omega
  · simp [List.length_append, List.length_replicate]
    omega

theorem reachable_len_le (σ : AppState) (h : Reachable σ) :
    σ.selectedAnswers.length ≤ σ.questions.length := by
  induction h with
  | init => exact le_refl 0
  | render rand h ih =>
    rw [renderMemo]
    split
    · exact ih
    · simpa using ih
  | start h ih =>
    rw [clickStart]
    split
    · simpa [startFetch] using ih
    · exact ih
  | success results h ih => simp [resolveSuccess]
  | failure status h ih => simpa [resolveFailure] using ih
  | select i a h ih =>
    rw [selectAnswer]
    split
    · rename_i hcond
      obtain ⟨-, hlt, -⟩ := hcond
      simp [handleAnswerClick, listSetExtend_length]
      omega
    · exact ih
  | check h ih =>
    rw [endGame]
    split
    · simpa using ih
    · exact ih
  | again h ih =>
    rw [newGame]
    split
    · simp [startFetch]
    · exact ih

/-- C10: in every reachable state the selections sequence is no longer
than the questions sequence, so the derived score — evaluated on every
read in every phase — is defined (its lookup of `questions[index]` never
dereferences a missing question). -/
theorem score_safe (σ : AppState) (h : Reachable σ) :
    σ.selectedAnswers.length ≤ σ.questions.length
    ∧ ∃ n, score σ.questions σ.selectedAnswers = some n := by
  have hlen := reachable_len_le σ h
  exact ⟨hlen, ⟨_, score_eq σ.questions σ.selectedAnswers hlen⟩⟩

/-- Witness for C10 along a concrete run: start, then successful fetch of
a two-question batch. -/
theorem score_safe_witness :
    (resolveSuccess (clickStart initialState) [q1, q2]).selectedAnswers.length ≤
      (resolveSuccess (clickStart initialState) [q1, q2]).questions.length
    ∧ ∃ n, score (resolveSuccess (clickStart initialState) [q1, q2]).questions
        (resolveSuccess (clickStart initialState) [q1, q2]).selectedAnswers =
          some n :=
  score_safe _ (Reachable.success [q1, q2] (Reachable.start Reachable.init))

end Quizzical
